import Mathlib

/-!
Verification of the audio-tools repository's numeric core.

The repository contains two visualization tools:
- `LFOEffects.tsx`: a modulation engine that classifies the effect by LFO
  rate and samples a modulated waveform;
- `BiquadVisualizer.tsx`: a biquad filter step-through with fixed example
  coefficients and a seven-step cyclic state machine.

JavaScript numbers used by the source are modelled as rationals (`ℚ`);
trigonometric sample values live in `ℝ` via `Real.sin`.
-/

/-- The three slider parameters of the LFO tool (`carrierFreq`, `lfoRate`,
`depth` in `LFOEffects.tsx`). -/
structure ModulationParameters where
  carrierFrequencyHz : ℚ
  modulationRateHz : ℚ
  depthPercent : ℚ
  deriving DecidableEq, Repr

/-- The effect type returned by `getEffectInfo` in `LFOEffects.tsx`,
reduced to its variant tag. -/
inductive EffectClassification where
  | Tremolo
  | Transition
  | RingModulation
  deriving DecidableEq, Repr

/-- `getEffectInfo` from `LFOEffects.tsx`: the branch structure
`if (lfoRate < 20) ... else if (lfoRate < 50) ... else ...` selecting the
effect variant.  The source also builds description strings from
`carrierFreq` and `lfoRate`; only the variant tag is modelled. -/
def classify (p : ModulationParameters) : EffectClassification :=
  if p.modulationRateHz < 20 then EffectClassification.Tremolo
  else if p.modulationRateHz < 50 then EffectClassification.Transition
  else EffectClassification.RingModulation

/-- C1: `classify` returns `Tremolo` exactly when the modulation rate is
below 20 Hz, `Transition` exactly on `[20, 50)`, `RingModulation` exactly
at 50 Hz and above, and it depends only on `modulationRateHz`. -/
theorem classify_thresholds (p : ModulationParameters) :
    (classify p = EffectClassification.Tremolo ↔ p.modulationRateHz < 20) ∧
    (classify p = EffectClassification.Transition ↔
      20 ≤ p.modulationRateHz ∧ p.modulationRateHz < 50) ∧
    (classify p = EffectClassification.RingModulation ↔ 50 ≤ p.modulationRateHz) ∧
    (∀ q : ModulationParameters,
      q.modulationRateHz = p.modulationRateHz → classify q = classify p) := by
  have hc : ∀ q : ModulationParameters,
      q.modulationRateHz = p.modulationRateHz → classify q = classify p :=
    fun q hq => by simp only [classify, hq]
  by_cases h1 : p.modulationRateHz < 20
  · have e : classify p = EffectClassification.Tremolo := by
      simp [classify, h1]
    refine ⟨⟨fun _ => h1, fun _ => e⟩, ?_, ?_, hc⟩
    · constructor
      · intro h
        rw [e] at h
        exact absurd h (by decide)
      · rintro ⟨h, -⟩
        linarith
    · constructor
      · intro h
        rw [e] at h
        exact absurd h (by decide)
      · intro h
        linarith
  · by_cases h2 : p.modulationRateHz < 50
    · have e : classify p = EffectClassification.Transition := by
        simp [classify, h1, h2]
      refine ⟨?_, ⟨fun _ => ⟨not_lt.mp h1, h2⟩, fun _ => e⟩, ?_, hc⟩
      · constructor
        · intro h
          rw [e] at h
          exact absurd h (by decide)
        · intro h
          exact absurd h h1
      · constructor
        · intro h
          rw [e] at h
          exact absurd h (by decide)
        · intro h
          linarith
    · have e : classify p = EffectClassification.RingModulation := by
        simp [classify, h1, h2]
      refine ⟨?_, ?_, ⟨fun _ => not_lt.mp h2, fun _ => e⟩, hc⟩
      · constructor
        · intro h
          rw [e] at h
          exact absurd h (by decide)
        · intro h
          exact absurd h h1
      · constructor
        · intro h
          rw [e] at h
          exact absurd h (by decide)
        · rintro ⟨-, h⟩
          exact absurd h h2

/-- Boundary witnesses for C1: rate 20 classifies as `Transition` and
rate 50 as `RingModulation`. -/
theorem classify_thresholds_witness :
    classify ⟨440, 20, 100⟩ = EffectClassification.Transition ∧
    classify ⟨440, 50, 100⟩ = EffectClassification.RingModulation :=
  ⟨(classify_thresholds ⟨440, 20, 100⟩).2.1.mpr (by norm_num),
   (classify_thresholds ⟨440, 50, 100⟩).2.2.1.mpr (by norm_num)⟩

/-- The LFO envelope (`lfoModulator` in `drawWaveform`):
`1 - depthNorm + depthNorm * (lfoWave + 1) / 2` where
`depthNorm = depth / 100` and `lfoWave = sin(2π · lfoRate · t)`. -/
noncomputable def lfoEnvelope (p : ModulationParameters) (t : ℝ) : ℝ :=
  let depthNorm : ℝ := (p.depthPercent : ℝ) / 100
  let lfoWave : ℝ := Real.sin (2 * Real.pi * (p.modulationRateHz : ℝ) * t)
  1 - depthNorm + depthNorm * (lfoWave + 1) / 2

/-- The `i`-th modulated sample of `drawWaveform`: at `t = (i / samples) *
duration`, the value `carrierWave * lfoModulator` with
`carrierWave = sin(2π · carrierFreq · t)` (the source then maps this value
to the pixel `centerY - value * amplitude`; the pixel mapping is not part
of the numeric engine). -/
noncomputable def sampleValue (p : ModulationParameters) (d : ℚ) (n : ℕ)
    (i : ℕ) : ℝ :=
  let t : ℝ := ((i : ℝ) / (n : ℝ)) * (d : ℝ)
  Real.sin (2 * Real.pi * (p.carrierFrequencyHz : ℝ) * t) * lfoEnvelope p t

/-- The sampling loop of `drawWaveform`: `for (let i = 0; i < samples; i++)`
emitting one modulated sample per index. -/
noncomputable def sampleWaveform (p : ModulationParameters) (d : ℚ)
    (n : ℕ) : List ℝ :=
  (List.range n).map (sampleValue p d n)

/-- The display window of `drawWaveform`:
`duration = lfoRate < 20 ? 1.0 : 0.1`. -/
def displayDuration (p : ModulationParameters) : ℚ :=
  if p.modulationRateHz < 20 then 1 else 1 / 10

/-- C2: with `sampleCount = 2000` and a positive duration `d`,
`sampleWaveform` emits exactly 2000 samples; sample `i` is taken at
`t = (i / 2000) · d`, which lies in `[0, d)`, and equals the carrier sine
times the LFO envelope. -/
theorem sampleWaveform_count_and_values (p : ModulationParameters) (d : ℚ)
    (hd : 0 < d) :
    (sampleWaveform p d 2000).length = 2000 ∧
    ∀ i : ℕ, i < 2000 →
      0 ≤ ((i : ℝ) / 2000) * (d : ℝ) ∧
      ((i : ℝ) / 2000) * (d : ℝ) < (d : ℝ) ∧
      (sampleWaveform p d 2000).getD i 0 =
        Real.sin (2 * Real.pi * (p.carrierFrequencyHz : ℝ) *
            (((i : ℝ) / 2000) * (d : ℝ))) *
          lfoEnvelope p (((i : ℝ) / 2000) * (d : ℝ)) := by
  have hdr : (0 : ℝ) < (d : ℝ) := by exact_mod_cast hd
  refine ⟨by simp [sampleWaveform], fun i hi => ⟨?_, ?_, ?_⟩⟩
  · positivity
  · have hfrac : ((i : ℝ) / 2000) < 1 := by
      rw [div_lt_one (by norm_num)]
      exact_mod_cast hi
    calc ((i : ℝ) / 2000) * (d : ℝ) < 1 * (d : ℝ) :=
          mul_lt_mul_of_pos_right hfrac hdr
      _ = (d : ℝ) := one_mul _
  · have hget : (sampleWaveform p d 2000).getD i 0 = sampleValue p d 2000 i := by
      simp [sampleWaveform, List.getD_eq_getElem?_getD, List.getElem?_map,
        List.getElem?_range hi]
    rw [hget]
    simp [sampleValue]

/-- C2 witness: duration 1 is positive and the waveform at the default
parameters has exactly 2000 samples. -/
theorem sampleWaveform_count_and_values_witness :
    (sampleWaveform ⟨440, 5, 100⟩ 1 2000).length = 2000 :=
  (sampleWaveform_count_and_values ⟨440, 5, 100⟩ 1 (by norm_num)).1

/-- For depth in `[0, 100]` the LFO envelope stays in `[0, 1]`. -/
theorem lfoEnvelope_bounds (p : ModulationParameters)
    (h0 : 0 ≤ p.depthPercent) (h100 : p.depthPercent ≤ 100) (t : ℝ) :
    0 ≤ lfoEnvelope p t ∧ lfoEnvelope p t ≤ 1 := by
  unfold lfoEnvelope
  set s : ℝ := Real.sin (2 * Real.pi * (p.modulationRateHz : ℝ) * t) with hs
  have hs1 : s ≤ 1 := Real.sin_le_one _
  have hs2 : -1 ≤ s := Real.neg_one_le_sin _
  have hdn0 : (0 : ℝ) ≤ (p.depthPercent : ℝ) / 100 := by
    have : (0 : ℝ) ≤ (p.depthPercent : ℝ) := by exact_mod_cast h0
    positivity
  have hdn1 : (p.depthPercent : ℝ) / 100 ≤ 1 := by
    have : (p.depthPercent : ℝ) ≤ 100 := by exact_mod_cast h100
    linarith
  constructor
  · have hprod : 0 ≤ (p.depthPercent : ℝ) / 100 * (s + 1) :=
      mul_nonneg hdn0 (by linarith)
    linarith
  · have hprod : (p.depthPercent : ℝ) / 100 * (s + 1) ≤
        (p.depthPercent : ℝ) / 100 * 2 :=
      mul_le_mul_of_nonneg_left (by linarith) hdn0
    linarith

/-- C3: for depth in `[0, 100]`, every sample value (and hence every
element of the emitted waveform) lies in `[-1, 1]`. -/
theorem sampleWaveform_bounded (p : ModulationParameters)
    (h0 : 0 ≤ p.depthPercent) (h100 : p.depthPercent ≤ 100) :
    (∀ (d : ℚ) (n i : ℕ),
      -1 ≤ sampleValue p d n i ∧ sampleValue p d n i ≤ 1) ∧
    ∀ (d : ℚ) (n : ℕ), ∀ y ∈ sampleWaveform p d n, -1 ≤ y ∧ y ≤ 1 := by
  have hval : ∀ (d : ℚ) (n i : ℕ),
      -1 ≤ sampleValue p d n i ∧ sampleValue p d n i ≤ 1 := by
    intro d n i
    have hval : sampleValue p d n i =
        Real.sin (2 * Real.pi * (p.carrierFrequencyHz : ℝ) *
          (((i : ℝ) / (n : ℝ)) * (d : ℝ))) *
        lfoEnvelope p (((i : ℝ) / (n : ℝ)) * (d : ℝ)) := rfl
    rw [hval]
    set t : ℝ := ((i : ℝ) / (n : ℝ)) * (d : ℝ) with ht
    set c : ℝ := Real.sin (2 * Real.pi * (p.carrierFrequencyHz : ℝ) * t)
      with hc
    have hc1 : c ≤ 1 := Real.sin_le_one _
    have hc2 : -1 ≤ c := Real.neg_one_le_sin _
    obtain ⟨he0, he1⟩ := lfoEnvelope_bounds p h0 h100 t
    constructor
    · nlinarith [mul_nonneg (by linarith : (0:ℝ) ≤ c + 1) he0]
    · nlinarith [mul_nonneg (by linarith : (0:ℝ) ≤ 1 - c) he0]
  refine ⟨hval, fun d n y hy => ?_⟩
  obtain ⟨i, -, rfl⟩ := List.mem_map.mp hy
  exact hval d n i

/-- C3 witness: the first sample at full depth and default parameters is
within `[-1, 1]`. -/
theorem sampleWaveform_bounded_witness :
    -1 ≤ sampleValue ⟨440, 5, 100⟩ 1 2000 0 ∧
    sampleValue ⟨440, 5, 100⟩ 1 2000 0 ≤ 1 :=
  (sampleWaveform_bounded ⟨440, 5, 100⟩ (by norm_num) (by norm_num)).1 1 2000 0

/-- C6: with `depthPercent = 0` the envelope is constantly 1 and every
sample value is the unmodulated carrier sine. -/
theorem depth_zero_pure_carrier (p : ModulationParameters)
    (hdep : p.depthPercent = 0) :
    (∀ t : ℝ, lfoEnvelope p t = 1) ∧
    ∀ (d : ℚ) (n i : ℕ), sampleValue p d n i =
      Real.sin (2 * Real.pi * (p.carrierFrequencyHz : ℝ) *
        (((i : ℝ) / (n : ℝ)) * (d : ℝ))) := by
  have he : ∀ t : ℝ, lfoEnvelope p t = 1 := by
    intro t
    simp [lfoEnvelope, hdep]
  exact ⟨he, fun d n i => by simp [sampleValue, he]⟩

/-- C6 witness: at zero depth the envelope at `t = 0` equals 1 and the
first sample is the pure carrier sine. -/
theorem depth_zero_pure_carrier_witness :
    lfoEnvelope ⟨440, 5, 0⟩ 0 = 1 :=
  (depth_zero_pure_carrier ⟨440, 5, 0⟩ rfl).1 0

namespace BiquadVisualizer

/-- Sample values for demonstration (`const x = [0, 0.5, 1.0, 0.8, 0.3,
-0.2, -0.6, -0.4]` in `BiquadVisualizer.tsx`). -/
def x : List ℚ := [0, 1/2, 1, 4/5, 3/10, -1/5, -3/5, -2/5]

/-- `const currentIndex = 2`. -/
def currentIndex : ℕ := 2

/-- Biquad coefficients (example lowpass): `b0 = 0.067`. -/
def b0 : ℚ := 67 / 1000

/-- `b1 = 0.134`. -/
def b1 : ℚ := 134 / 1000

/-- `b2 = 0.067`. -/
def b2 : ℚ := 67 / 1000

/-- `a1 = -1.143`. -/
def a1 : ℚ := -1143 / 1000

/-- `a2 = 0.413`. -/
def a2 : ℚ := 413 / 1000

/-- State variable `x1 = 0.5` (previous input). -/
def x1 : ℚ := 1 / 2

/-- State variable `x2 = 0`. -/
def x2 : ℚ := 0

/-- State variable `y1 = 0.3` (previous output). -/
def y1 : ℚ := 3 / 10

/-- State variable `y2 = 0.1`. -/
def y2 : ℚ := 1 / 10

/-- The feedforward sum shown in step 4:
`b0·x[currentIndex] + b1·x1 + b2·x2`. -/
def feedforwardTerm : ℚ := b0 * x.getD currentIndex 0 + b1 * x1 + b2 * x2

/-- The feedback sum shown in step 5: `-a1·y1 - a2·y2`. -/
def feedbackTerm : ℚ := -a1 * y1 - a2 * y2

/-- The output sample:
`const yn = b0*x[currentIndex] + b1*x1 + b2*x2 - a1*y1 - a2*y2`. -/
def yn : ℚ :=
  b0 * x.getD currentIndex 0 + b1 * x1 + b2 * x2 - a1 * y1 - a2 * y2

/-- One didactic step record.  The source records also carry a prose
`description` string (pure presentation text, not used by any numeric
property); the `title`, `highlight` target and the pre-formatted
`equation` string (where present) are kept. -/
structure StepDescriptor where
  title : String
  highlight : String
  equation : Option String
  deriving DecidableEq, Repr

/-- The seven-entry `steps` array of `BiquadVisualizer.tsx`.  The equation
strings are the template-literal results at the fixed coefficient and
state values above. -/
def steps : List StepDescriptor :=
  [⟨"Step 1: Input Signal", "input", none⟩,
   ⟨"Step 2: Store Previous Inputs", "delays-x", none⟩,
   ⟨"Step 3: Store Previous Outputs", "delays-y", none⟩,
   ⟨"Step 4: Feedforward Path", "feedforward",
     some "0.067·1.0 + 0.134·0.5 + 0.067·0.0 = 0.134"⟩,
   ⟨"Step 5: Feedback Path", "feedback",
     some "1.143·0.3 + -0.413·0.1 = 0.302"⟩,
   ⟨"Step 6: Combine & Output", "output", some "y[n] = 0.436"⟩,
   ⟨"Step 7: Update State", "update", none⟩]

/-- The timer tick of the `useEffect` interval:
`setStep(prev => (prev + 1) % steps.length)`. -/
def advanceStep (s : ℕ) : ℕ := (s + 1) % steps.length

/-- `useState(0)` for `step`. -/
def initialStep : ℕ := 0

/-- `useState(false)` for `isPlaying`. -/
def initialIsPlaying : Bool := false

/-- Delay-line state `{ x1, x2, y1, y2 }` of the biquad filter. -/
structure BiquadState where
  x1 : ℚ
  x2 : ℚ
  y1 : ℚ
  y2 : ℚ
  deriving DecidableEq, Repr

/-- Modelled from the spec: §4.2 contract `advance(state, newX, newY) ->
BiquadState` shifting the delay line `x2 ← x1, x1 ← newX, y2 ← y1,
y1 ← newY`.  The source only narrates this shift in the step-7 caption
("Shift the delay elements") and never implements it as a function. -/
def advance (s : BiquadState) (newX newY : ℚ) : BiquadState :=
  { x1 := newX, x2 := s.x1, y1 := newY, y2 := s.y1 }

/-- The visualizer UI state: current step, autoplay flag and timer speed. -/
structure UIState where
  step : ℕ
  isPlaying : Bool
  speed : ℕ
  deriving DecidableEq, Repr

/-- The step-indicator button handler:
`onClick={() => { setStep(idx); setIsPlaying(false); }}`. -/
def selectStep (idx : ℕ) (s : UIState) : UIState :=
  { s with step := idx, isPlaying := false }

/-- The Reset button handler:
`onClick={() => { setStep(0); setIsPlaying(false); }}`. -/
def resetClick (s : UIState) : UIState :=
  { s with step := 0, isPlaying := false }

end BiquadVisualizer

/-- C4: at the fixed demonstration values the feedforward term is 0.134,
the feedback term is 0.3016, and the output `yn` is their sum, 0.4356,
in exact rational arithmetic. -/
theorem biquad_example_values :
    BiquadVisualizer.feedforwardTerm = 0.134 ∧
    BiquadVisualizer.feedbackTerm = 0.3016 ∧
    BiquadVisualizer.yn =
      BiquadVisualizer.feedforwardTerm + BiquadVisualizer.feedbackTerm ∧
    BiquadVisualizer.yn = 0.4356 := by
  refine ⟨?_, ?_, ?_, ?_⟩ <;>
    norm_num [BiquadVisualizer.feedforwardTerm, BiquadVisualizer.feedbackTerm,
      BiquadVisualizer.yn, BiquadVisualizer.b0, BiquadVisualizer.b1,
      BiquadVisualizer.b2, BiquadVisualizer.a1, BiquadVisualizer.a2,
      BiquadVisualizer.x1, BiquadVisualizer.x2, BiquadVisualizer.y1,
      BiquadVisualizer.y2, BiquadVisualizer.x, BiquadVisualizer.currentIndex]

/-- C5: the step machine starts at `step = 0` with `isPlaying = false`;
the `steps` script has length 7; each advance maps `step` to
`(step + 1) % 7`, so the step stays below 7, and seven consecutive
advances from 0 return to 0. -/
theorem step_machine_cycle :
    BiquadVisualizer.initialStep = 0 ∧
    BiquadVisualizer.initialIsPlaying = false ∧
    BiquadVisualizer.steps.length = 7 ∧
    (∀ s : ℕ, BiquadVisualizer.advanceStep s = (s + 1) % 7) ∧
    (∀ s : ℕ, BiquadVisualizer.advanceStep s < 7) ∧
    BiquadVisualizer.advanceStep^[7] BiquadVisualizer.initialStep =
      BiquadVisualizer.initialStep := by
  refine ⟨rfl, rfl, rfl, fun s => rfl, fun s => Nat.mod_lt _ (by decide), ?_⟩
  decide

/-- C7: `advance` shifts the delay line (`x2` takes the old `x1`, `x1`
the new input, `y2` the old `y1`, `y1` the new output), and two advances
in a row fully determine the state from the four pushed values. -/
theorem advance_shifts :
    (∀ (s : BiquadVisualizer.BiquadState) (newX newY : ℚ),
      (BiquadVisualizer.advance s newX newY).x2 = s.x1 ∧
      (BiquadVisualizer.advance s newX newY).x1 = newX ∧
      (BiquadVisualizer.advance s newX newY).y2 = s.y1 ∧
      (BiquadVisualizer.advance s newX newY).y1 = newY) ∧
    ∀ (s : BiquadVisualizer.BiquadState) (a b c e : ℚ),
      BiquadVisualizer.advance (BiquadVisualizer.advance s a b) c e =
        { x1 := c, x2 := a, y1 := e, y2 := b } :=
  ⟨fun _ _ _ => ⟨rfl, rfl, rfl, rfl⟩, fun _ _ _ _ _ => rfl⟩

/-- C10: selecting step indicator `idx` sets the step to `idx` and halts
autoplay; Reset sets the step to 0 and halts autoplay; neither touches the
speed setting. -/
theorem manual_step_stops_autoplay
    (s : BiquadVisualizer.UIState) (idx : ℕ) :
    (BiquadVisualizer.selectStep idx s).step = idx ∧
    (BiquadVisualizer.selectStep idx s).isPlaying = false ∧
    (BiquadVisualizer.selectStep idx s).speed = s.speed ∧
    (BiquadVisualizer.resetClick s).step = 0 ∧
    (BiquadVisualizer.resetClick s).isPlaying = false ∧
    (BiquadVisualizer.resetClick s).speed = s.speed :=
  ⟨rfl, rfl, rfl, rfl, rfl, rfl⟩

/-- An oscillator node of the audio graph: its configured frequency and
whether `start()` has been called on it. -/
structure OscillatorNode where
  frequency : ℚ
  started : Bool
  deriving DecidableEq, Repr

/-- `AudioScheduledSourceNode.stop()`: raises `InvalidStateError` when the
node was never started, otherwise succeeds. -/
def OscillatorNode.stop (o : OscillatorNode) : Except String OscillatorNode :=
  if o.started then Except.ok o else Except.error "InvalidStateError"

/-- A gain node of the audio graph, reduced to its gain value. -/
structure GainNode where
  gain : ℚ
  deriving DecidableEq, Repr

/-- The audio-related state of `LFOEffects`: whether an `AudioContext`
exists, the four node refs (`oscillatorRef`, `lfoOscillatorRef`,
`gainNodeRef`, `lfoGainRef`), the `isPlaying` flag, and a running count of
audio nodes created (to observe node creation). -/
structure AudioState where
  hasContext : Bool
  oscillatorRef : Option OscillatorNode
  lfoOscillatorRef : Option OscillatorNode
  gainNodeRef : Option GainNode
  lfoGainRef : Option GainNode
  isPlaying : Bool
  nodesCreated : ℕ
  deriving DecidableEq, Repr

/-- `playSound` from `LFOEffects.tsx`: returns immediately when
`isPlaying`; otherwise ensures an `AudioContext`, creates the carrier
oscillator (at `carrierFreq`), the LFO oscillator (at `lfoRate`), a gain
node at 0.3 and an LFO gain node at `(depth / 100) * 0.3`, stores the four
refs, starts both oscillators and sets `isPlaying`. -/
def playSound (p : ModulationParameters) (s : AudioState) : AudioState :=
  if s.isPlaying then s
  else
    { hasContext := true,
      oscillatorRef := some ⟨p.carrierFrequencyHz, true⟩,
      lfoOscillatorRef := some ⟨p.modulationRateHz, true⟩,
      gainNodeRef := some ⟨3 / 10⟩,
      lfoGainRef := some ⟨p.depthPercent / 100 * (3 / 10)⟩,
      isPlaying := true,
      nodesCreated := s.nodesCreated + 4 }

/-- `stopSound` from `LFOEffects.tsx`: if `oscillatorRef.current` is
non-null, stop it and null the ref; likewise for `lfoOscillatorRef`;
finally `setIsPlaying(false)`. -/
def stopSound (s : AudioState) : Except String AudioState := do
  let s1 ← match s.oscillatorRef with
    | some osc => do
        let _ ← osc.stop
        pure { s with oscillatorRef := none }
    | none => pure s
  let s2 ← match s1.lfoOscillatorRef with
    | some osc => do
        let _ ← osc.stop
        pure { s1 with lfoOscillatorRef := none }
    | none => pure s1
  pure { s2 with isPlaying := false }

/-- C8: a successful stop leaves both oscillator refs null and
`isPlaying = false`, and a second stop on that state succeeds and changes
nothing. -/
theorem stopSound_idempotent (s t : AudioState)
    (h : stopSound s = Except.ok t) :
    t.oscillatorRef = none ∧ t.lfoOscillatorRef = none ∧
    t.isPlaying = false ∧ stopSound t = Except.ok t := by
  obtain ⟨ctx, oref, lref, gref, lgref, play, k⟩ := s
  rcases oref with - | ⟨f1, st1⟩
  · rcases lref with - | ⟨f2, st2⟩
    · injection h with h1
      subst h1
      exact ⟨rfl, rfl, rfl, rfl⟩
    · cases st2
      · injection h
      · injection h with h1
        subst h1
        exact ⟨rfl, rfl, rfl, rfl⟩
  · rcases lref with - | ⟨f2, st2⟩
    · cases st1
      · injection h
      · injection h with h1
        subst h1
        exact ⟨rfl, rfl, rfl, rfl⟩
    · cases st1
      · injection h
      · cases st2
        · injection h
        · injection h with h1
          subst h1
          exact ⟨rfl, rfl, rfl, rfl⟩

/-- C8 witness: stopping a playing state with both oscillators started
yields the released state, and the theorem applies to it. -/
theorem stopSound_idempotent_witness :
    stopSound ⟨true, none, none, some ⟨3/10⟩, some ⟨3/10⟩, false, 4⟩ =
      Except.ok ⟨true, none, none, some ⟨3/10⟩, some ⟨3/10⟩, false, 4⟩ :=
  (stopSound_idempotent
    ⟨true, some ⟨440, true⟩, some ⟨5, true⟩, some ⟨3/10⟩, some ⟨3/10⟩,
      true, 4⟩
    ⟨true, none, none, some ⟨3/10⟩, some ⟨3/10⟩, false, 4⟩
    rfl).2.2.2

/-- C9: calling `playSound` while `isPlaying` is already true returns the
state unchanged — no audio node is created and nothing is modified. -/
theorem playSound_noop_when_playing (p : ModulationParameters)
    (s : AudioState) (h : s.isPlaying = true) :
    playSound p s = s := by
  simp [playSound, h]

/-- C9 witness: at a concrete playing state, `playSound` is the
identity. -/
theorem playSound_noop_when_playing_witness :
    playSound ⟨440, 5, 100⟩
      ⟨true, some ⟨440, true⟩, some ⟨5, true⟩, some ⟨3/10⟩, some ⟨3/10⟩,
        true, 4⟩ =
      ⟨true, some ⟨440, true⟩, some ⟨5, true⟩, some ⟨3/10⟩, some ⟨3/10⟩,
        true, 4⟩ :=
  playSound_noop_when_playing ⟨440, 5, 100⟩ _ rfl
